import Mathlib

/-!
Verification of the web SQLite provider (rn-expo-sqlite-web).

Shallow embedding of `src/services/database/SQLiteProvider.web.tsx` (and of the
`waitForDb`-based provider variant in `src/unnamed/part_000`): an in-memory SQL
engine (sql.js) wrapped with an IndexedDB persistence layer, a transaction
coordinator and a readiness gate.

The sql.js engine is an external collaborator; it is modelled as a small
deterministic state machine (a single table of `(rowid, value)` rows) with the
connection-level counters `lastInsertRowId` / `rowsModified` and single-level
BEGIN/COMMIT/ROLLBACK.  Serialization (`db.export()` / `new SQL.Database(data)`)
is modelled as the identity on engine content, per the engine's documented
round-trip contract.  The IndexedDB blob store is modelled as an association
list of snapshots keyed by database name, together with three failure switches
(the open request, the get request and the put request can each fail), and a
log of the put requests that were issued.

JavaScript async subtleties embedded faithfully:
* in `loadDatabaseFromIndexedDB` / `saveDatabaseToIndexedDB` the inner promise
  is returned from inside `try` without `await`, so its rejection is NOT caught
  by the surrounding `catch`; only a failure of `openIndexedDB` (which IS
  awaited) is caught, logged and recovered;
* `saveDB` at the call sites in `runAsync` and the transaction wrappers is
  invoked without `await` (fire and forget): its rejection never propagates to
  the caller of the mutating operation.
-/

/-- Errors surfaced through promise rejections, tagged by the spec taxonomy:
engine/module load failures, blob-store (IndexedDB) request failures, and SQL
errors raised by the engine. -/
inductive JsError : Type
  | initialization (msg : String)
  | storage (msg : String)
  | query (msg : String)
deriving DecidableEq

deriving instance DecidableEq for Except

/-- Content of the engine's database: one table of `(rowid, value)` rows plus
the rowid the next insert will use.  This is the part of the engine that
participates in snapshots and transaction rollback. -/
structure DbState : Type where
  rows : List (Int × Int)
  nextRowId : Int
deriving DecidableEq

/-- The content of a freshly constructed empty engine (`new SQL.Database()`). -/
def DbState.empty : DbState := { rows := [], nextRowId := 1 }

/-- A sql.js `Database` connection: current content, the snapshot taken at
`BEGIN TRANSACTION` (rollback target; `none` when no transaction is active),
and the connection-level counters `sqlite3_last_insert_rowid` and
`sqlite3_changes` (which are NOT rolled back by `ROLLBACK`). -/
structure Database : Type where
  state : DbState
  txn : Option DbState
  lastInsertRowId : Int
  rowsModified : Nat
deriving DecidableEq

/-- Embeds `new SQL.Database(savedData)` when a snapshot was found, otherwise
`new SQL.Database()`: a fresh connection hydrated with the given content. -/
def newDatabase (savedData : Option DbState) : Database :=
  { state := savedData.getD DbState.empty, txn := none,
    lastInsertRowId := 0, rowsModified := 0 }

/-- Embeds `db.export()`: serializes the entire current engine content. -/
def Database.export (db : Database) : DbState := db.state

/-- Data-manipulation statements the callers issue (the SQL workload; the
transaction-control statements `BEGIN`/`COMMIT`/`ROLLBACK` are separate, they
are issued only by the transaction coordinator). -/
inductive Stmt : Type
  | insert (v : Int)
  | deleteAll
  | bad
deriving DecidableEq

/-- SQL text passed to `database.run`: either transaction control or a
data-manipulation statement. -/
inductive TxSql : Type
  | begin
  | commit
  | rollback
  | stmt (s : Stmt)
deriving DecidableEq

/-- SQL text passed to `database.exec`: a data-manipulation statement or the
`SELECT last_insert_rowid()` probe used by `runAsync`. -/
inductive ExecSql : Type
  | stmt (s : Stmt)
  | selectLastInsertRowId
deriving DecidableEq

/-- Engine semantics of one data-manipulation statement.  `insert` appends a
row at `nextRowId`, sets `lastInsertRowId` to that rowid and `rowsModified` to
1; `deleteAll` clears the table and reports the number of deleted rows; `bad`
is malformed SQL, the engine throws and the connection is unchanged. -/
def Database.runStmt (db : Database) (q : Stmt) : Except JsError Database :=
  match q with
  | .insert v =>
      let rid := db.state.nextRowId
      .ok { db with
              state := { rows := db.state.rows ++ [(rid, v)], nextRowId := rid + 1 },
              lastInsertRowId := rid,
              rowsModified := 1 }
  | .deleteAll =>
      .ok { db with
              state := { db.state with rows := [] },
              rowsModified := db.state.rows.length }
  | .bad => .error (.query "near bad: syntax error")

/-- Embeds `database.run(sql)`.  Single-level transactions: `BEGIN` inside a
transaction, or `COMMIT`/`ROLLBACK` outside one, are engine errors; `ROLLBACK`
restores the content saved at `BEGIN` (connection counters are untouched). -/
def Database.run (db : Database) (q : TxSql) : Except JsError Database :=
  match q with
  | .begin =>
      match db.txn with
      | some _ => .error (.query "cannot start a transaction within a transaction")
      | none => .ok { db with txn := some db.state }
  | .commit =>
      match db.txn with
      | none => .error (.query "cannot commit - no transaction is active")
      | some _ => .ok { db with txn := none }
  | .rollback =>
      match db.txn with
      | none => .error (.query "cannot rollback - no transaction is active")
      | some saved => .ok { db with state := saved, txn := none }
  | .stmt s => db.runStmt s

/-- Embeds `database.exec(sql)`: runs the statement and returns the result sets (as
`values` rows).  `SELECT last_insert_rowid()` returns one row holding the
connection counter and, being a SELECT, changes neither the content nor the
counters. -/
def Database.exec (db : Database) (q : ExecSql) :
    Except JsError (Database × List (List Int)) :=
  match q with
  | .stmt s => (db.runStmt s).map (fun db' => (db', []))
  | .selectLastInsertRowId => .ok (db, [[db.lastInsertRowId]])

/-- The IndexedDB world: stored snapshots keyed by database name, a log of the
put requests successfully issued, and three failure switches modelling a
rejecting open request, get request or put request. -/
structure Idb : Type where
  stored : List (String × DbState)
  puts : List (String × DbState)
  openReqFails : Bool
  getReqFails : Bool
  putReqFails : Bool
deriving DecidableEq

/-- A blob-store world where every request succeeds. -/
def Idb.healthy (w : Idb) : Prop :=
  w.openReqFails = false ∧ w.getReqFails = false ∧ w.putReqFails = false

instance (w : Idb) : Decidable w.healthy := by
  unfold Idb.healthy; infer_instance

/-- Embeds `loadDatabaseFromIndexedDB(databaseName)`.  The `try/catch` covers only the
awaited `openIndexedDB` call (failure is logged and recovered as `null`); the
inner promise is returned without `await`, so a failing get request rejects the
caller instead of being caught.  On success, `request.result || null` is the
stored snapshot for the name, if any. -/
def loadDatabaseFromIndexedDB (databaseName : String) (w : Idb) :
    Except JsError (Option DbState) :=
  if w.openReqFails then
    .ok none
  else if w.getReqFails then
    .error (.storage "get request failed")
  else
    .ok (w.stored.lookup databaseName)

/-- Embeds `saveDatabaseToIndexedDB(databaseName, data)`.  The `try/catch` covers only
the awaited `openIndexedDB` call (failure is logged, the promise resolves with
nothing written); a failing put request rejects the returned promise; on
success the snapshot overwrites the stored blob for the name and the put is
logged. -/
def saveDatabaseToIndexedDB (databaseName : String) (data : DbState) (w : Idb) :
    Except JsError Idb :=
  if w.openReqFails then
    .ok w
  else if w.putReqFails then
    .error (.storage "put request failed")
  else
    .ok { w with stored := (databaseName, data) :: w.stored,
                 puts := w.puts ++ [(databaseName, data)] }

/-- Embeds `loadDB(databaseName)`. -/
def loadDB (databaseName : String) (w : Idb) : Except JsError (Option DbState) :=
  loadDatabaseFromIndexedDB databaseName w

/-- Embeds `saveDB(databaseName, db)`: serialize the full engine content and hand it
to the blob store. -/
def saveDB (databaseName : String) (db : Database) (w : Idb) : Except JsError Idb :=
  saveDatabaseToIndexedDB databaseName db.export w

/-- A `saveDB(...)` call that is not awaited (fire and forget): the world
changes when the write succeeds, and a rejection is dropped on the floor —
it never reaches the caller of the enclosing operation. -/
def saveDBNoAwait (databaseName : String) (db : Database) (w : Idb) : Idb :=
  match saveDB databaseName db w with
  | .ok w' => w'
  | .error _ => w

/-- Environment of `openDatabaseAsync`: whether the dynamic
`import('sql.js')` / `initSqlJs` step fails (missing runtime asset). -/
structure OpenEnv : Type where
  moduleLoadFails : Bool
deriving DecidableEq

/-- Embeds `openDatabaseAsync(databaseName)`: load the engine module, read the prior
snapshot through `loadDB`, and construct the connection — hydrated when a
snapshot was found, empty otherwise.  A rejection of `loadDB` propagates. -/
def openDatabaseAsync (env : OpenEnv) (databaseName : String) (w : Idb) :
    Except JsError Database :=
  if env.moduleLoadFails then
    .error (.initialization "failed to load sql.js module")
  else
    match loadDB databaseName w with
    | .error e => .error e
    | .ok savedData => .ok (newDatabase savedData)

/-- The session state visible to the consumer-API closures: the mutable
`database` connection they capture, plus the IndexedDB world they persist to. -/
structure Session : Type where
  database : Database
  world : Idb
deriving DecidableEq

/-- Result record of `runAsync`. -/
structure RunResult : Type where
  lastInsertRowId : Int
  changes : Nat
deriving DecidableEq

/-- Embeds `execAsync(query)`: `database.exec(query)` and nothing else — the
`saveDB(databaseName, database)` call at this point is commented out in the
source, so no persist happens here. -/
def execAsync (q : ExecSql) (s : Session) : Except JsError Unit × Session :=
  match s.database.exec q with
  | .error e => (.error e, s)
  | .ok (db', _) => (.ok (), { s with database := db' })

/-- Embeds `runAsync(query, params)`: run the statement, then in the same synchronous
turn read `SELECT last_insert_rowid()` (taking `[0].values[0][0]` of the result
sets) and `database.getRowsModified()`, then fire `saveDB` without awaiting it,
and resolve with the counters. -/
def runAsync (databaseName : String) (q : Stmt) (s : Session) :
    Except JsError RunResult × Session :=
  match s.database.run (.stmt q) with
  | .error e => (.error e, s)
  | .ok db1 =>
      match db1.exec .selectLastInsertRowId with
      | .error e => (.error e, { s with database := db1 })
      | .ok (db2, resultSets) =>
          let result : RunResult :=
            { lastInsertRowId := ((resultSets.headD []).headD 0),
              changes := db2.rowsModified }
          let w' := saveDBNoAwait databaseName db2 s.world
          (.ok result, { database := db2, world := w' })

/-- A user-supplied transactional callback (`work`), deep-embedded: it can
resolve with a value, reject with an error, or call the mutating helpers
`runAsync` / `execAsync` of the same handle and continue. -/
inductive Work : Type
  | ret (v : Int)
  | fail (e : JsError)
  | runA (q : Stmt) (k : Work)
  | execA (q : ExecSql) (k : Work)
deriving DecidableEq

/-- Running a callback against the handle: each helper call threads the shared
connection and the blob-store world; the first rejection aborts the rest. -/
def interpWork (databaseName : String) : Work → Session → Except JsError Int × Session
  | .ret v, s => (.ok v, s)
  | .fail e, s => (.error e, s)
  | .runA q k, s =>
      match runAsync databaseName q s with
      | (.ok _, s') => interpWork databaseName k s'
      | (.error e, s') => (.error e, s')
  | .execA q k, s =>
      match execAsync q s with
      | (.ok _, s') => interpWork databaseName k s'
      | (.error e, s') => (.error e, s')

/-- The `catch` block of the transaction wrappers: `database.run('ROLLBACK')`
then `throw err`.  When the rollback itself throws, that error propagates
instead (a JavaScript `catch` block that throws replaces the exception). -/
def rollbackAndRethrow (e : JsError) (s : Session) : Except JsError Int × Session :=
  match s.database.run .rollback with
  | .ok db' => (.error e, { s with database := db' })
  | .error e2 => (.error e2, s)

/-- Embeds `withTransactionAsync(callback)`: `BEGIN TRANSACTION`, await the callback,
`COMMIT`, fire `saveDB` without awaiting, and resolve with the callback's
value; on any error in that body, `ROLLBACK` and rethrow the original error. -/
def withTransactionAsync (databaseName : String) (work : Work) (s : Session) :
    Except JsError Int × Session :=
  match s.database.run .begin with
  | .error e => rollbackAndRethrow e s
  | .ok db1 =>
      match interpWork databaseName work { s with database := db1 } with
      | (.error e, s2) => rollbackAndRethrow e s2
      | (.ok v, s2) =>
          match s2.database.run .commit with
          | .error e => rollbackAndRethrow e s2
          | .ok db3 =>
              let w' := saveDBNoAwait databaseName db3 s2.world
              (.ok v, { database := db3, world := w' })

/-- Embeds `withExclusiveTransactionAsync(callback)`: the source body is a verbatim
copy of `withTransactionAsync`'s. -/
def withExclusiveTransactionAsync (databaseName : String) (work : Work) (s : Session) :
    Except JsError Int × Session :=
  match s.database.run .begin with
  | .error e => rollbackAndRethrow e s
  | .ok db1 =>
      match interpWork databaseName work { s with database := db1 } with
      | (.error e, s2) => rollbackAndRethrow e s2
      | (.ok v, s2) =>
          match s2.database.run .commit with
          | .error e => rollbackAndRethrow e s2
          | .ok db3 =>
              let w' := saveDBNoAwait databaseName db3 s2.world
              (.ok v, { database := db3, world := w' })

/-- A row materialized by `stmt.getAsObject()`: a keyed record. -/
def DbRow : Type := List (String × Int)

instance : DecidableEq DbRow := by
  unfold DbRow; infer_instance

/-- The rows a `SELECT *` over the items table yields, in table order. -/
def DbState.selectRows (st : DbState) : List DbRow :=
  st.rows.map (fun r => [("id", r.1), ("value", r.2)])

/-- Queries handed to `database.prepare`.  `selectAll` iterates the table;
`badPrepare` is malformed SQL (prepare throws); `badBind` prepares a statement
whose `bind` throws; `selectAllFailAfter k` prepares a statement whose `step`
throws after yielding `k` rows (a QueryError raised mid-iteration). -/
inductive Query : Type
  | selectAll
  | badPrepare
  | badBind
  | selectAllFailAfter (k : Nat)
deriving DecidableEq

/-- A sql.js prepared statement: rows still to yield, the row the cursor sits
on (read by `getAsObject`), an optional count of `step` calls until an injected
failure, a `bind` failure switch, and how many times `free` has been called. -/
structure PreparedStmt : Type where
  pending : List DbRow
  current : Option DbRow
  stepsBeforeFail : Option Nat
  bindFails : Bool
  freeCount : Nat
deriving DecidableEq

/-- Embeds `database.prepare(query)`. -/
def Database.prepare (db : Database) (q : Query) : Except JsError PreparedStmt :=
  match q with
  | .selectAll =>
      .ok { pending := db.state.selectRows, current := none,
            stepsBeforeFail := none, bindFails := false, freeCount := 0 }
  | .badPrepare => .error (.query "near badPrepare: syntax error")
  | .badBind =>
      .ok { pending := db.state.selectRows, current := none,
            stepsBeforeFail := none, bindFails := true, freeCount := 0 }
  | .selectAllFailAfter k =>
      .ok { pending := db.state.selectRows, current := none,
            stepsBeforeFail := some k, bindFails := false, freeCount := 0 }

/-- Embeds `stmt.bind(params)`. -/
def PreparedStmt.bind (st : PreparedStmt) (params : List Int) :
    Except JsError PreparedStmt :=
  if st.bindFails then .error (.query "bind failed") else .ok st

/-- Embeds `stmt.step()`: advance the cursor; `true` when a row is available.  When an
injected failure is due, the call throws instead. -/
def PreparedStmt.step (st : PreparedStmt) : Except JsError (Bool × PreparedStmt) :=
  match st.stepsBeforeFail with
  | some 0 => .error (.query "step failed")
  | _ =>
      let fa := st.stepsBeforeFail.map (fun n => n - 1)
      match st.pending with
      | [] => .ok (false, { st with current := none, stepsBeforeFail := fa })
      | r :: rest =>
          .ok (true, { st with pending := rest, current := some r,
                               stepsBeforeFail := fa })

/-- Embeds `stmt.getAsObject()`: the row under the cursor. -/
def PreparedStmt.getAsObject (st : PreparedStmt) : DbRow := st.current.getD []

/-- Embeds `stmt.free()`. -/
def PreparedStmt.free (st : PreparedStmt) : PreparedStmt :=
  { st with freeCount := st.freeCount + 1 }

/-- The `while (stmt.step())` loop of `getAllAsync`, pushing
`stmt.getAsObject()` each iteration.  Fuel bounds the recursion; every call
site supplies `pending.length + 1`, which is always sufficient. -/
def getAllLoop : Nat → PreparedStmt → List DbRow →
    Except JsError (List DbRow) × PreparedStmt
  | 0, st, _ => (.error (.query "out of fuel"), st)
  | fuel + 1, st, acc =>
      match st.step with
      | .error e => (.error e, st)
      | .ok (false, st') => (.ok acc, st')
      | .ok (true, st') => getAllLoop fuel st' (acc ++ [st'.getAsObject])

/-- Embeds `getAllAsync(query, params)`: prepare, bind, step through all rows, free,
return the materialized rows.  There is no `try/finally`: `free` runs only on
the success path.  The final prepared-statement state is returned alongside
(`none` when `prepare` itself threw and no statement ever existed) so that
resource-release behaviour is observable. -/
def getAllAsync (db : Database) (q : Query) (params : List Int) :
    Except JsError (List DbRow) × Option PreparedStmt :=
  match db.prepare q with
  | .error e => (.error e, none)
  | .ok st =>
      match st.bind params with
      | .error e => (.error e, some st)
      | .ok st1 =>
          match getAllLoop (st1.pending.length + 1) st1 [] with
          | (.error e, st2) => (.error e, some st2)
          | (.ok rows, st2) => (.ok rows, some st2.free)

/-- Embeds `getFirstAsync(query, params)`: prepare, bind, a single `step`, materialize
the row if one was available (else resolve with `null`), free.  As in the
source, `free` runs only when `step` did not throw. -/
def getFirstAsync (db : Database) (q : Query) (params : List Int) :
    Except JsError (Option DbRow) × Option PreparedStmt :=
  match db.prepare q with
  | .error e => (.error e, none)
  | .ok st =>
      match st.bind params with
      | .error e => (.error e, some st)
      | .ok st1 =>
          match st1.step with
          | .error e => (.error e, some st1)
          | .ok (true, st2) => (.ok (some st2.getAsObject), some st2.free)
          | .ok (false, st2) => (.ok none, some st2.free)

/-- One committing mutation issued through the consumer API: a `runAsync`
statement, an `execAsync` statement, or a transactional callback run through
`withTransactionAsync`. -/
inductive Mutation : Type
  | runM (q : Stmt)
  | execM (q : ExecSql)
  | txnM (work : Work)
deriving DecidableEq

/-- Apply one mutation to the session. -/
def applyMutation (databaseName : String) (m : Mutation) (s : Session) :
    Except JsError Unit × Session :=
  match m with
  | .runM q =>
      match runAsync databaseName q s with
      | (.ok _, s') => (.ok (), s')
      | (.error e, s') => (.error e, s')
  | .execM q => execAsync q s
  | .txnM work =>
      match withTransactionAsync databaseName work s with
      | (.ok _, s') => (.ok (), s')
      | (.error e, s') => (.error e, s')

/-- Apply a sequence of mutations, stopping at the first failure. -/
def applyMutations (databaseName : String) :
    List Mutation → Session → Except JsError Unit × Session
  | [], s => (.ok (), s)
  | m :: ms, s =>
      match applyMutation databaseName m s with
      | (.ok _, s') => applyMutations databaseName ms s'
      | (.error e, s') => (.error e, s')

/-- An environment in which the sql.js module loads fine. -/
def OpenEnv.ok : OpenEnv := { moduleLoadFails := false }

/-!
Readiness gate (the `waitForDb` provider variant)

In the provider variant that exposes a readiness gate, `dbRef.current` starts
as `null` and is assigned exactly once — after `onInit` has completed — to the
fully initialized engine, and is never cleared.  `waitForDb` resolves
immediately when `dbRef.current` is set, and otherwise re-checks it on a timer
tick (`setInterval`, 50 ms) until it is set; every public operation first
awaits `waitForDb` and only then touches the engine, exactly once.

The model: the provider run is described by the tick `initDone` at which
`dbRef.current` is assigned and by the engine `readyDb` it is assigned to;
`dbRefAt` is the resulting monotone trace of `dbRef.current`; `waitForDb`
polls the trace from the invocation tick, with fuel bounding how many timer
ticks we observe.
-/

/-- One run of the provider's initialization: the tick at which
`dbRef.current = database` executes (after `await onInit(api)`), and the fully
initialized engine assigned there. -/
structure ProviderRun : Type where
  initDone : Nat
  readyDb : Database
deriving DecidableEq

/-- The value of `dbRef.current` at a timer tick: `null` before initialization
completes, the ready engine from then on (assigned once, never cleared). -/
def dbRefAt (p : ProviderRun) (u : Nat) : Option Database :=
  if p.initDone ≤ u then some p.readyDb else none

/-- Embeds `waitForDb()` invoked at tick `t`: resolve immediately when `dbRef.current`
is set, otherwise re-check on each following tick; `fuel` bounds the number of
timer ticks observed.  Resolves with the resolution tick and the engine. -/
def waitForDb (p : ProviderRun) (t : Nat) : Nat → Option (Nat × Database)
  | 0 =>
      match dbRefAt p t with
      | some db => some (t, db)
      | none => none
  | fuel + 1 =>
      match dbRefAt p t with
      | some db => some (t, db)
      | none => waitForDb p (t + 1) fuel

/-- A public operation of the gated provider variant (`runAsync`,
`getAllAsync`, `getFirstAsync`, `execAsync`, `withExclusiveTransactionAsync`):
`const database = await waitForDb()` followed by one execution of the
operation's body against that engine. -/
def gatedOp {α : Type} (p : ProviderRun) (t : Nat) (fuel : Nat)
    (op : Database → α) : Option α :=
  (waitForDb p t fuel).map (fun r => op r.2)

/-!
Helper lemmas
-/

/-- The three failure switches of a world (they are fixed features of the
environment: no operation of the provider changes them). -/
def Idb.flags (w : Idb) : Bool × Bool × Bool :=
  (w.openReqFails, w.getReqFails, w.putReqFails)

theorem Database.runStmt_ok_txn {db db' : Database} {q : Stmt}
    (h : db.runStmt q = .ok db') : db'.txn = db.txn := by
  cases q <;> simp only [Database.runStmt] at h
  · cases h; rfl
  · cases h; rfl
  · cases h

theorem Database.exec_ok_txn {db db' : Database} {q : ExecSql} {rs : List (List Int)}
    (h : db.exec q = .ok (db', rs)) : db'.txn = db.txn := by
  cases q with
  | stmt s =>
      simp only [Database.exec, Except.map] at h
      cases hr : db.runStmt s with
      | error e => rw [hr] at h; cases h
      | ok d => rw [hr] at h; cases h; exact Database.runStmt_ok_txn hr
  | selectLastInsertRowId => simp only [Database.exec] at h; cases h; rfl

theorem saveDBNoAwait_flags (n : String) (db : Database) (w : Idb) :
    (saveDBNoAwait n db w).flags = w.flags := by
  unfold saveDBNoAwait saveDB saveDatabaseToIndexedDB
  by_cases h1 : w.openReqFails <;> by_cases h2 : w.putReqFails <;>
    simp [h1, h2, Idb.flags]

theorem runAsync_txn (n : String) (q : Stmt) (s : Session) :
    (runAsync n q s).2.database.txn = s.database.txn := by
  unfold runAsync
  split
  · rfl
  next db1 hr =>
    split
    next e he => exact Database.runStmt_ok_txn hr
    next db2 rs he =>
      simp only
      rw [Database.exec_ok_txn he, Database.runStmt_ok_txn hr]

theorem runAsync_flags (n : String) (q : Stmt) (s : Session) :
    (runAsync n q s).2.world.flags = s.world.flags := by
  unfold runAsync
  split
  · rfl
  next db1 hr =>
    split
    next e he => rfl
    next db2 rs he =>
      simp only
      exact saveDBNoAwait_flags n db2 s.world

theorem execAsync_txn (q : ExecSql) (s : Session) :
    (execAsync q s).2.database.txn = s.database.txn := by
  unfold execAsync
  cases he : s.database.exec q with
  | error e => rfl
  | ok p =>
      obtain ⟨db', rs⟩ := p
      simp only
      exact Database.exec_ok_txn he

theorem execAsync_flags (q : ExecSql) (s : Session) :
    (execAsync q s).2.world.flags = s.world.flags := by
  unfold execAsync
  cases he : s.database.exec q with
  | error e => rfl
  | ok p => obtain ⟨db', rs⟩ := p; rfl

theorem execAsync_world (q : ExecSql) (s : Session) :
    (execAsync q s).2.world = s.world := by
  unfold execAsync
  cases he : s.database.exec q with
  | error e => rfl
  | ok p => obtain ⟨db', rs⟩ := p; rfl

theorem interpWork_txn (n : String) (wk : Work) :
    ∀ s : Session, (interpWork n wk s).2.database.txn = s.database.txn := by
  induction wk with
  | ret v => intro s; rfl
  | fail e => intro s; rfl
  | runA q k ih =>
      intro s
      unfold interpWork
      cases hr : runAsync n q s with
      | mk r s' =>
          cases r with
          | ok u =>
              simp only
              rw [ih s']
              have := runAsync_txn n q s
              rw [hr] at this
              exact this
          | error e =>
              simp only
              have := runAsync_txn n q s
              rw [hr] at this
              exact this
  | execA q k ih =>
      intro s
      unfold interpWork
      cases hr : execAsync q s with
      | mk r s' =>
          cases r with
          | ok u =>
              simp only
              rw [ih s']
              have := execAsync_txn q s
              rw [hr] at this
              exact this
          | error e =>
              simp only
              have := execAsync_txn q s
              rw [hr] at this
              exact this

theorem interpWork_flags (n : String) (wk : Work) :
    ∀ s : Session, (interpWork n wk s).2.world.flags = s.world.flags := by
  induction wk with
  | ret v => intro s; rfl
  | fail e => intro s; rfl
  | runA q k ih =>
      intro s
      unfold interpWork
      cases hr : runAsync n q s with
      | mk r s' =>
          cases r with
          | ok u =>
              simp only
              rw [ih s']
              have := runAsync_flags n q s
              rw [hr] at this
              exact this
          | error e =>
              simp only
              have := runAsync_flags n q s
              rw [hr] at this
              exact this
  | execA q k ih =>
      intro s
      unfold interpWork
      cases hr : execAsync q s with
      | mk r s' =>
          cases r with
          | ok u =>
              simp only
              rw [ih s']
              have := execAsync_flags q s
              rw [hr] at this
              exact this
          | error e =>
              simp only
              have := execAsync_flags q s
              rw [hr] at this
              exact this

theorem Idb.healthy_of_flags {w w' : Idb} (h : w'.flags = w.flags) (hw : w.healthy) :
    w'.healthy := by
  obtain ⟨h1, h2, h3⟩ := hw
  simp only [Idb.flags, Prod.mk.injEq] at h
  exact ⟨h.1.trans h1, h.2.1.trans h2, h.2.2.trans h3⟩

theorem saveDBNoAwait_healthy_eq (n : String) (db : Database) (w : Idb)
    (h : w.healthy) :
    saveDBNoAwait n db w =
      { w with stored := (n, db.state) :: w.stored,
               puts := w.puts ++ [(n, db.state)] } := by
  obtain ⟨h1, h2, h3⟩ := h
  unfold saveDBNoAwait saveDB saveDatabaseToIndexedDB
  simp [h1, h3, Database.export]

/-- What `runAsync` does when the engine accepts the statement: it resolves
with the connection counters read right after execution, updates the shared
connection, and fires the unawaited persist. -/
theorem runAsync_ok_eq (n : String) (q : Stmt) (s : Session) (db1 : Database)
    (h : s.database.run (.stmt q) = .ok db1) :
    runAsync n q s =
      (.ok { lastInsertRowId := db1.lastInsertRowId, changes := db1.rowsModified },
       { database := db1, world := saveDBNoAwait n db1 s.world }) := by
  unfold runAsync
  rw [h]
  simp [Database.exec]

/-- Characterization of the transaction wrapper from a non-transactional
session: `BEGIN` saves the current content; when the callback resolves, the
wrapper commits and fires the unawaited persist of the post-commit engine;
when the callback rejects, the wrapper rolls the content back to the `BEGIN`
snapshot and rethrows the callback's own error. -/
theorem withTransactionAsync_eq (n : String) (work : Work) (s : Session)
    (hTxn : s.database.txn = none) :
    withTransactionAsync n work s =
      match interpWork n work
          { s with database := { s.database with txn := some s.database.state } } with
      | (.ok v, s2) =>
          (.ok v, { database := { s2.database with txn := none },
                    world := saveDBNoAwait n { s2.database with txn := none } s2.world })
      | (.error e, s2) =>
          (.error e,
           { s2 with database :=
               { s2.database with state := s.database.state, txn := none } }) := by
  unfold withTransactionAsync
  have hb : s.database.run .begin = .ok { s.database with txn := some s.database.state } := by
    simp [Database.run, hTxn]
  rw [hb]
  simp only
  cases hi : interpWork n work
      { s with database := { s.database with txn := some s.database.state } } with
  | mk r s2 =>
      have htx : s2.database.txn = some s.database.state := by
        have h2 := interpWork_txn n work
          { s with database := { s.database with txn := some s.database.state } }
        rw [hi] at h2
        exact h2
      cases r with
      | ok v =>
          have hc : s2.database.run .commit = .ok { s2.database with txn := none } := by
            simp [Database.run, htx]
          simp only [hc]
      | error e =>
          have hrb : s2.database.run .rollback =
              .ok { s2.database with state := s.database.state, txn := none } := by
            simp [Database.run, htx]
          simp only [rollbackAndRethrow, hrb]

theorem rollbackAndRethrow_world (e : JsError) (s : Session) :
    (rollbackAndRethrow e s).2.world = s.world := by
  unfold rollbackAndRethrow
  split
  · rfl
  · rfl

theorem withTransactionAsync_flags (n : String) (wk : Work) (s : Session) :
    (withTransactionAsync n wk s).2.world.flags = s.world.flags := by
  unfold withTransactionAsync
  split
  next e hb => rw [rollbackAndRethrow_world]
  next db1 hb =>
    cases hi : interpWork n wk { s with database := db1 } with
    | mk r s2 =>
        have hfl : s2.world.flags = s.world.flags := by
          have h2 := interpWork_flags n wk { s with database := db1 }
          rw [hi] at h2
          exact h2
        cases r with
        | error e =>
            simp only [hi]
            rw [rollbackAndRethrow_world]
            exact hfl
        | ok v =>
            simp only [hi]
            split
            next e hc => rw [rollbackAndRethrow_world]; exact hfl
            next db3 hc =>
                simp only
                rw [saveDBNoAwait_flags]
                exact hfl

theorem applyMutation_flags (n : String) (m : Mutation) (s : Session) :
    (applyMutation n m s).2.world.flags = s.world.flags := by
  cases m with
  | runM q =>
      unfold applyMutation
      cases hr : runAsync n q s with
      | mk r s' =>
          have h := runAsync_flags n q s
          rw [hr] at h
          cases r <;> simp only [hr] <;> exact h
  | execM q =>
      unfold applyMutation
      exact execAsync_flags q s
  | txnM wk =>
      unfold applyMutation
      cases hr : withTransactionAsync n wk s with
      | mk r s' =>
          have h := withTransactionAsync_flags n wk s
          rw [hr] at h
          cases r <;> simp only [hr] <;> exact h

theorem applyMutations_flags (n : String) (ms : List Mutation) :
    ∀ s : Session, (applyMutations n ms s).2.world.flags = s.world.flags := by
  induction ms with
  | nil => intro s; rfl
  | cons m ms ih =>
      intro s
      unfold applyMutations
      cases hm : applyMutation n m s with
      | mk r s' =>
          have h := applyMutation_flags n m s
          rw [hm] at h
          cases r with
          | ok u => simp only; rw [ih s']; exact h
          | error e => simpa using h

theorem Database.prepare_freeCount {db : Database} {q : Query} {st : PreparedStmt}
    (h : db.prepare q = .ok st) : st.freeCount = 0 := by
  cases q <;> simp only [Database.prepare] at h <;> first | (cases h; rfl) | cases h

theorem PreparedStmt.bind_eq {st st' : PreparedStmt} {params : List Int}
    (h : st.bind params = .ok st') : st' = st := by
  unfold PreparedStmt.bind at h
  by_cases hb : st.bindFails
  · rw [if_pos hb] at h; cases h
  · rw [if_neg hb] at h; cases h; rfl

theorem PreparedStmt.step_ok_freeCount {st st' : PreparedStmt} {b : Bool}
    (h : st.step = .ok (b, st')) : st'.freeCount = st.freeCount := by
  unfold PreparedStmt.step at h
  cases hf : st.stepsBeforeFail with
  | none =>
      rw [hf] at h
      cases hp : st.pending with
      | nil => rw [hp] at h; cases h; rfl
      | cons r rest => rw [hp] at h; cases h; rfl
  | some k =>
      cases k with
      | zero => rw [hf] at h; cases h
      | succ m =>
          rw [hf] at h
          cases hp : st.pending with
          | nil => rw [hp] at h; cases h; rfl
          | cons r rest => rw [hp] at h; cases h; rfl

theorem getAllLoop_freeCount :
    ∀ (fuel : Nat) (st : PreparedStmt) (acc : List DbRow),
      (getAllLoop fuel st acc).2.freeCount = st.freeCount := by
  intro fuel
  induction fuel with
  | zero => intro st acc; rfl
  | succ n ih =>
      intro st acc
      unfold getAllLoop
      cases hs : st.step with
      | error e => rfl
      | ok p =>
          obtain ⟨b, st'⟩ := p
          cases b with
          | false =>
              simp only
              exact PreparedStmt.step_ok_freeCount hs
          | true =>
              simp only
              rw [ih st' (acc ++ [st'.getAsObject])]
              exact PreparedStmt.step_ok_freeCount hs

/-- Success of the stepping loop: it yields exactly the rows that were pending
(appended to the accumulator). -/
theorem getAllLoop_ok_rows :
    ∀ (fuel : Nat) (st : PreparedStmt) (acc rows : List DbRow) (st' : PreparedStmt),
      getAllLoop fuel st acc = (.ok rows, st') → rows = acc ++ st.pending := by
  intro fuel
  induction fuel with
  | zero => intro st acc rows st' h; cases h
  | succ n ih =>
      intro st acc rows st' h
      unfold getAllLoop at h
      cases hf : st.stepsBeforeFail with
      | some k =>
          cases k with
          | zero =>
              have hs : st.step = .error (.query "step failed") := by
                simp [PreparedStmt.step, hf]
              rw [hs] at h
              cases h
          | succ m =>
              cases hp : st.pending with
              | nil =>
                  have hs : st.step = .ok (false,
                      { st with current := none, stepsBeforeFail := some m }) := by
                    simp [PreparedStmt.step, hf, hp]
                  rw [hs] at h
                  cases h
                  simp [hp]
              | cons r rest =>
                  have hs : st.step = .ok (true,
                      { st with pending := rest, current := some r,
                                stepsBeforeFail := some m }) := by
                    simp [PreparedStmt.step, hf, hp]
                  rw [hs] at h
                  have h2 := ih _ _ _ _ h
                  rw [h2]
                  simp [PreparedStmt.getAsObject, hp]
      | none =>
          cases hp : st.pending with
          | nil =>
              have hs : st.step = .ok (false,
                  { st with current := none, stepsBeforeFail := none }) := by
                simp [PreparedStmt.step, hf, hp]
              rw [hs] at h
              cases h
              simp [hp]
          | cons r rest =>
              have hs : st.step = .ok (true,
                  { st with pending := rest, current := some r,
                            stepsBeforeFail := none }) := by
                simp [PreparedStmt.step, hf, hp]
              rw [hs] at h
              have h2 := ih _ _ _ _ h
              rw [h2]
              simp [PreparedStmt.getAsObject, hp]

/-- Success of the stepping loop rules out an immediate injected step failure. -/
theorem getAllLoop_ok_no_immediate_fail :
    ∀ (fuel : Nat) (st : PreparedStmt) (acc rows : List DbRow) (st' : PreparedStmt),
      getAllLoop fuel st acc = (.ok rows, st') → st.stepsBeforeFail ≠ some 0 := by
  intro fuel st acc rows st' h hf
  cases fuel with
  | zero => cases h
  | succ n =>
      unfold getAllLoop at h
      have hs : st.step = .error (.query "step failed") := by
        simp [PreparedStmt.step, hf]
      rw [hs] at h
      cases h

theorem Database.prepare_state_congr {db db' : Database} (h : db.state = db'.state)
    (q : Query) : db.prepare q = db'.prepare q := by
  cases q <;> simp [Database.prepare, h]

theorem getAllAsync_state_congr {db db' : Database} (h : db.state = db'.state)
    (q : Query) (params : List Int) :
    getAllAsync db q params = getAllAsync db' q params := by
  unfold getAllAsync
  rw [Database.prepare_state_congr h q]

theorem getFirstAsync_state_congr {db db' : Database} (h : db.state = db'.state)
    (q : Query) (params : List Int) :
    getFirstAsync db q params = getFirstAsync db' q params := by
  unfold getFirstAsync
  rw [Database.prepare_state_congr h q]

theorem runAsync_db_congr (n : String) (q : Stmt) {s t : Session}
    (h : s.database = t.database) :
    (runAsync n q s).1 = (runAsync n q t).1 ∧
    (runAsync n q s).2.database = (runAsync n q t).2.database := by
  unfold runAsync
  rw [h]
  cases hr : t.database.run (.stmt q) with
  | error e => simp only [hr]; exact ⟨trivial, h⟩
  | ok db1 =>
      cases he : db1.exec .selectLastInsertRowId with
      | error e => simp only [hr, he]; exact ⟨trivial, trivial⟩
      | ok p => obtain ⟨db2, rs⟩ := p; simp only [hr, he]; exact ⟨trivial, trivial⟩

theorem execAsync_db_congr (q : ExecSql) {s t : Session}
    (h : s.database = t.database) :
    (execAsync q s).1 = (execAsync q t).1 ∧
    (execAsync q s).2.database = (execAsync q t).2.database := by
  unfold execAsync
  rw [h]
  cases he : t.database.exec q with
  | error e => simp only [he]; exact ⟨trivial, h⟩
  | ok p => obtain ⟨db', rs⟩ := p; simp only [he]; exact ⟨trivial, trivial⟩

theorem interpWork_db_congr (n : String) (wk : Work) :
    ∀ {s t : Session}, s.database = t.database →
      (interpWork n wk s).1 = (interpWork n wk t).1 ∧
      (interpWork n wk s).2.database = (interpWork n wk t).2.database := by
  induction wk with
  | ret v => intro s t h; exact ⟨rfl, h⟩
  | fail e => intro s t h; exact ⟨rfl, h⟩
  | runA q k ih =>
      intro s t h
      unfold interpWork
      have hc := runAsync_db_congr n q h
      cases h1 : runAsync n q s with
      | mk r1 s1 =>
          cases h2 : runAsync n q t with
          | mk r2 s2 =>
              rw [h1, h2] at hc
              obtain ⟨hr, hdb⟩ := hc
              cases r1 with
              | ok u =>
                  cases r2 with
                  | ok u2 => simp only [h1, h2]; exact ih hdb
                  | error e2 => cases hr
              | error e1 =>
                  cases r2 with
                  | ok u2 => cases hr
                  | error e2 =>
                      injection hr with h3
                      subst h3
                      simp only [h1, h2]
                      exact ⟨trivial, hdb⟩
  | execA q k ih =>
      intro s t h
      unfold interpWork
      have hc := execAsync_db_congr q h
      cases h1 : execAsync q s with
      | mk r1 s1 =>
          cases h2 : execAsync q t with
          | mk r2 s2 =>
              rw [h1, h2] at hc
              obtain ⟨hr, hdb⟩ := hc
              cases r1 with
              | ok u =>
                  cases r2 with
                  | ok u2 => simp only [h1, h2]; exact ih hdb
                  | error e2 => cases hr
              | error e1 =>
                  cases r2 with
                  | ok u2 => cases hr
                  | error e2 =>
                      injection hr with h3
                      subst h3
                      simp only [h1, h2]
                      exact ⟨trivial, hdb⟩

theorem rollbackAndRethrow_db_congr (e : JsError) {s t : Session}
    (h : s.database = t.database) :
    (rollbackAndRethrow e s).1 = (rollbackAndRethrow e t).1 ∧
    (rollbackAndRethrow e s).2.database = (rollbackAndRethrow e t).2.database := by
  unfold rollbackAndRethrow
  rw [h]
  cases hr : t.database.run .rollback with
  | error e2 => simp only [hr]; exact ⟨trivial, h⟩
  | ok db' => simp only [hr]; exact ⟨trivial, trivial⟩

theorem withTransactionAsync_db_congr (n : String) (wk : Work) {s t : Session}
    (h : s.database = t.database) :
    (withTransactionAsync n wk s).1 = (withTransactionAsync n wk t).1 ∧
    (withTransactionAsync n wk s).2.database =
      (withTransactionAsync n wk t).2.database := by
  unfold withTransactionAsync
  rw [h]
  cases hb : t.database.run .begin with
  | error e => simp only [hb]; exact rollbackAndRethrow_db_congr e h
  | ok db1 =>
      have hi := interpWork_db_congr n wk
        (s := { s with database := db1 }) (t := { t with database := db1 }) rfl
      cases h1 : interpWork n wk { s with database := db1 } with
      | mk r1 s1 =>
          cases h2 : interpWork n wk { t with database := db1 } with
          | mk r2 s2 =>
              rw [h1, h2] at hi
              obtain ⟨hr, hdb⟩ := hi
              cases r1 with
              | error e1 =>
                  cases r2 with
                  | error e2 =>
                      injection hr with h3
                      subst h3
                      simp only [hb, h1, h2]
                      exact rollbackAndRethrow_db_congr e1 hdb
                  | ok u => cases hr
              | ok u =>
                  cases r2 with
                  | error e2 => cases hr
                  | ok u2 =>
                      injection hr with h3
                      subst h3
                      simp only [hb, h1, h2]
                      rw [hdb]
                      cases hc : s2.database.run .commit with
                      | error e =>
                          simp only [hc]
                          exact rollbackAndRethrow_db_congr e hdb
                      | ok db3 => simp only [hc]; exact ⟨trivial, trivial⟩

theorem Database.runStmt_error {db : Database} {q : Stmt} {e : JsError}
    (h : db.runStmt q = .error e) : e = .query "near bad: syntax error" := by
  cases q <;> simp only [Database.runStmt] at h
  · cases h
  · cases h
  · injection h with h2; exact h2.symm

theorem runAsync_error_is_query (n : String) (q : Stmt) (s : Session) (e : JsError) :
    (runAsync n q s).1 = .error e → ∃ msg, e = .query msg := by
  unfold runAsync
  cases hr : s.database.run (.stmt q) with
  | error e1 =>
      simp only [hr]
      intro h
      injection h with h2
      subst h2
      exact ⟨_, Database.runStmt_error hr⟩
  | ok db1 =>
      simp only [hr, Database.exec]
      intro h
      cases h

/-!
Concrete fixtures
-/

/-- A healthy, empty blob-store world. -/
def emptyWorld : Idb :=
  { stored := [], puts := [], openReqFails := false, getReqFails := false,
    putReqFails := false }

/-- A fresh session: empty engine over the healthy empty world. -/
def freshSession : Session :=
  { database := newDatabase none, world := emptyWorld }

/-- A world whose put request fails. -/
def putFailsWorld : Idb := { emptyWorld with putReqFails := true }

/-- A world whose get request fails. -/
def getFailsWorld : Idb := { emptyWorld with getReqFails := true }

/-!
Claims
-/

/-- C9: `withExclusiveTransactionAsync` satisfies exactly the same contract as
`withTransactionAsync` — for every callback and every session the two entry
points perform the same begin/invoke/commit-and-persist (or
rollback-and-rethrow) steps and produce the same result, error, final engine
state and persisted snapshot; the exclusivity distinction is contract-level
only (the two source bodies are verbatim copies). -/
theorem exclusive_transaction_same_as_plain :
    ∀ (databaseName : String) (work : Work) (s : Session),
      withExclusiveTransactionAsync databaseName work s =
        withTransactionAsync databaseName work s :=
  fun _ _ _ => rfl

/-- C4: when the engine accepts the statement, `runAsync` resolves with
`lastInsertRowId` equal to the connection's last-inserted rowid immediately
after executing the statement and `changes` equal to the rows affected by that
statement, both read in the same synchronous turn; for an INSERT the reported
rowid identifies the newly appended row and `changes` is 1. -/
theorem runAsync_counters (databaseName : String) (q : Stmt) (s : Session)
    (db1 : Database) (h : s.database.run (.stmt q) = .ok db1) :
    (runAsync databaseName q s).1 =
      .ok { lastInsertRowId := db1.lastInsertRowId, changes := db1.rowsModified } ∧
    (∀ v, q = .insert v →
        db1.state.rows = s.database.state.rows ++ [(db1.lastInsertRowId, v)] ∧
        db1.rowsModified = 1) := by
  constructor
  · rw [runAsync_ok_eq databaseName q s db1 h]
  · intro v hv
    subst hv
    simp only [Database.run, Database.runStmt] at h
    injection h with h2
    subst h2
    exact ⟨rfl, rfl⟩

/-- Witness for C4 at a concrete single-row INSERT on a fresh session. -/
theorem runAsync_counters_witness :
    (runAsync "db.db" (Stmt.insert 9) freshSession).1 =
      .ok { lastInsertRowId := 1, changes := 1 } :=
  (runAsync_counters "db.db" (.insert 9) freshSession
      { state := { rows := [(1, 9)], nextRowId := 2 }, txn := none,
        lastInsertRowId := 1, rowsModified := 1 } rfl).1

/-- C1 is refuted: a callback that calls `runAsync` and then fails leaves a
rolled-back engine and rethrows the original failure, but the `runAsync`
helper had already fired a persist: a blob-store write occurs on the failure
path and the persisted snapshot differs from its pre-transaction value. -/
theorem withTransactionAsync_failure_persists_counterexample :
    (withTransactionAsync "db.db" (.runA (.insert 7) (.fail (.query "boom")))
        freshSession).1 = .error (.query "boom") ∧
    (withTransactionAsync "db.db" (.runA (.insert 7) (.fail (.query "boom")))
        freshSession).2.database.state = freshSession.database.state ∧
    (withTransactionAsync "db.db" (.runA (.insert 7) (.fail (.query "boom")))
        freshSession).2.world.puts ≠ [] ∧
    (withTransactionAsync "db.db" (.runA (.insert 7) (.fail (.query "boom")))
        freshSession).2.world.stored.lookup "db.db" ≠
      freshSession.world.stored.lookup "db.db" := by
  decide

/-- C1 (amended): if `work` resolves, the coordinator commits and then
persists the post-commit state to the blob store; if `work` raises, the
coordinator rolls the engine content back to its pre-transaction value and
re-raises the very same failure; however, blob-store writes already issued by
mutating helpers (`runAsync`) that `work` invoked before failing are not
undone, so the persisted snapshot need not equal its pre-transaction value. -/
theorem withTransactionAsync_contract (databaseName : String) (work : Work)
    (s : Session) (hTxn : s.database.txn = none) (hW : s.world.healthy) :
    (∀ v s', withTransactionAsync databaseName work s = (.ok v, s') →
        s'.database.txn = none ∧
        s'.world.stored.lookup databaseName = some s'.database.export) ∧
    (∀ e s', withTransactionAsync databaseName work s = (.error e, s') →
        s'.database.state = s.database.state ∧ s'.database.txn = none ∧
        (interpWork databaseName work
            { s with database := { s.database with txn := some s.database.state } }).1
          = .error e) := by
  have key := withTransactionAsync_eq databaseName work s hTxn
  cases hi : interpWork databaseName work
      { s with database := { s.database with txn := some s.database.state } } with
  | mk r s2 =>
      rw [hi] at key
      cases r with
      | ok v0 =>
          constructor
          · intro v s' hEq
            rw [key] at hEq
            injection hEq with hv hs
            subst hs
            refine ⟨rfl, ?_⟩
            have hW2 : s2.world.healthy := by
              apply Idb.healthy_of_flags _ hW
              have hf := interpWork_flags databaseName work
                { s with database := { s.database with txn := some s.database.state } }
              rw [hi] at hf
              exact hf
            rw [saveDBNoAwait_healthy_eq _ _ _ hW2]
            simp [List.lookup, Database.export]
          · intro e s' hEq
            rw [key] at hEq
            cases hEq
      | error e0 =>
          constructor
          · intro v s' hEq
            rw [key] at hEq
            cases hEq
          · intro e s' hEq
            rw [key] at hEq
            injection hEq with he hs
            injection he with he2
            subst he2
            subst hs
            exact ⟨rfl, rfl, rfl⟩

/-- Witness for the amended C1 contract at a concrete committing callback. -/
theorem withTransactionAsync_contract_witness :
    (withTransactionAsync "db.db" (.ret 4) freshSession).2.database.txn = none ∧
    (withTransactionAsync "db.db" (.ret 4) freshSession).2.world.stored.lookup "db.db"
      = some (withTransactionAsync "db.db" (.ret 4) freshSession).2.database.export :=
  (withTransactionAsync_contract "db.db" (.ret 4) freshSession rfl (by decide)).1 4
    (withTransactionAsync "db.db" (.ret 4) freshSession).2 rfl

/-- C3: `execAsync` never persists — the `saveDB` call in its body is commented
out in the source — so, universally, the blob-store world after `execAsync` is
exactly the world before; at the failing input (a committing `execAsync`
mutation on a fresh session) the engine gains a row while the stored blob for
the database name stays absent and no put request is ever issued. -/
theorem execAsync_never_persists :
    (∀ (q : ExecSql) (s : Session), (execAsync q s).2.world = s.world) ∧
    (execAsync (.stmt (.insert 1)) freshSession).2.database.state.rows = [(1, 1)] ∧
    (execAsync (.stmt (.insert 1)) freshSession).2.world.stored.lookup "db.db" = none ∧
    (execAsync (.stmt (.insert 1)) freshSession).2.world.puts = [] := by
  refine ⟨execAsync_world, ?_, ?_, ?_⟩ <;> rfl

/-- C6: at the failing input — a blob store whose get request errors during
open — `openDatabaseAsync` propagates the rejection as a thrown storage error
instead of recovering it as "no prior snapshot" (and it is not an engine-load
`initialization` failure): the `catch` in `loadDatabaseFromIndexedDB` cannot
intercept it because the inner promise is returned from the `try` block
without `await`. -/
theorem openDatabaseAsync_get_failure_throws :
    openDatabaseAsync OpenEnv.ok "db.db" getFailsWorld =
      .error (.storage "get request failed") := rfl

/-- C8 is refuted: with a blob store whose put request fails, `runAsync` still
resolves successfully with its counters — the persist failure is never
surfaced to the caller — and nothing was stored. -/
theorem runAsync_write_failure_swallowed_counterexample :
    (runAsync "db.db" (.insert 1)
        { database := newDatabase none, world := putFailsWorld }).1
      = .ok { lastInsertRowId := 1, changes := 1 } ∧
    (runAsync "db.db" (.insert 1)
        { database := newDatabase none, world := putFailsWorld }).2.world.stored
      = [] := by
  decide

/-- C8 (amended): blob-store write failures are never surfaced to the caller
of a mutating operation: the value resolved or error thrown by `runAsync` and
by `withTransactionAsync` does not depend on the blob-store world at all
(persist runs unawaited, and an `openIndexedDB` failure during save is caught
and logged), every error `runAsync` throws is an engine `query` error, and an
`openIndexedDB` read failure during load is recovered as absent. -/
theorem persist_failure_not_surfaced (databaseName : String) (q : Stmt)
    (work : Work) (db : Database) (w w' : Idb) :
    (runAsync databaseName q { database := db, world := w }).1 =
      (runAsync databaseName q { database := db, world := w' }).1 ∧
    (withTransactionAsync databaseName work { database := db, world := w }).1 =
      (withTransactionAsync databaseName work { database := db, world := w' }).1 ∧
    (∀ e, (runAsync databaseName q { database := db, world := w }).1 = .error e →
        ∃ msg, e = .query msg) ∧
    loadDatabaseFromIndexedDB databaseName { w with openReqFails := true } = .ok none := by
  refine ⟨(@runAsync_db_congr databaseName q { database := db, world := w }
              { database := db, world := w' } rfl).1,
          (@withTransactionAsync_db_congr databaseName work
              { database := db, world := w } { database := db, world := w' } rfl).1,
          fun e he => runAsync_error_is_query databaseName q _ e he,
          by simp [loadDatabaseFromIndexedDB]⟩

/-- Witness for the amended C8 at a concrete failing statement: the only
error `runAsync` surfaces is the engine's own query error. -/
theorem persist_failure_not_surfaced_witness :
    (runAsync "db.db" Stmt.bad
        { database := newDatabase none, world := putFailsWorld }).1
      = .error (.query "near bad: syntax error") ∧
    (∃ msg, JsError.query "near bad: syntax error" = .query msg) :=
  ⟨rfl, (persist_failure_not_surfaced "db.db" .bad (.ret 0) (newDatabase none)
      putFailsWorld emptyWorld).2.2.1 _ rfl⟩

theorem getAllAsync_ok_freed {db : Database} {q : Query} {params : List Int}
    {rows : List DbRow} {st : PreparedStmt}
    (h : getAllAsync db q params = (.ok rows, some st)) : st.freeCount = 1 := by
  unfold getAllAsync at h
  cases hp : db.prepare q with
  | error e => try simp only [hp] at h; cases h
  | ok st0 =>
      try simp only [hp] at h
      cases hb : st0.bind params with
      | error e => try simp only [hb] at h; cases h
      | ok st1 =>
          try simp only [hb] at h
          cases hl : getAllLoop (st1.pending.length + 1) st1 [] with
          | mk r1 st2 =>
              cases r1 with
              | error e1 => try simp only [hl] at h; cases h
              | ok rows1 =>
                  try simp only [hl] at h
                  injection h with h1 h2
                  injection h2 with h3
                  have e1 : st2.freeCount = st1.freeCount := by
                    have hfc := getAllLoop_freeCount (st1.pending.length + 1) st1 []
                    try simp only [hl] at hfc
                    exact hfc
                  have e2 : st1.freeCount = 0 := by
                    rw [PreparedStmt.bind_eq hb]
                    exact Database.prepare_freeCount hp
                  rw [← h3]
                  simp [PreparedStmt.free, e1, e2]

theorem getAllAsync_error_not_freed {db : Database} {q : Query} {params : List Int}
    {e : JsError} {st : PreparedStmt}
    (h : getAllAsync db q params = (.error e, some st)) : st.freeCount = 0 := by
  unfold getAllAsync at h
  cases hp : db.prepare q with
  | error e2 => try simp only [hp] at h; cases h
  | ok st0 =>
      try simp only [hp] at h
      have hf0 : st0.freeCount = 0 := Database.prepare_freeCount hp
      cases hb : st0.bind params with
      | error e2 =>
          try simp only [hb] at h
          injection h with h1 h2
          injection h2 with h3
          rw [← h3]
          exact hf0
      | ok st1 =>
          try simp only [hb] at h
          cases hl : getAllLoop (st1.pending.length + 1) st1 [] with
          | mk r1 st2 =>
              cases r1 with
              | ok rows1 => try simp only [hl] at h; cases h
              | error e1 =>
                  try simp only [hl] at h
                  injection h with h1 h2
                  injection h2 with h3
                  have e3 : st2.freeCount = st1.freeCount := by
                    have hfc := getAllLoop_freeCount (st1.pending.length + 1) st1 []
                    try simp only [hl] at hfc
                    exact hfc
                  rw [← h3, e3, PreparedStmt.bind_eq hb]
                  exact hf0

theorem getFirstAsync_ok_freed {db : Database} {q : Query} {params : List Int}
    {r : Option DbRow} {st : PreparedStmt}
    (h : getFirstAsync db q params = (.ok r, some st)) : st.freeCount = 1 := by
  unfold getFirstAsync at h
  cases hp : db.prepare q with
  | error e => try simp only [hp] at h; cases h
  | ok st0 =>
      try simp only [hp] at h
      cases hb : st0.bind params with
      | error e => try simp only [hb] at h; cases h
      | ok st1 =>
          try simp only [hb] at h
          cases hs : st1.step with
          | error e1 => try simp only [hs] at h; cases h
          | ok p =>
              obtain ⟨b, st2⟩ := p
              try simp only [hs] at h
              have e1 : st2.freeCount = st1.freeCount :=
                PreparedStmt.step_ok_freeCount hs
              have e2 : st1.freeCount = 0 := by
                rw [PreparedStmt.bind_eq hb]
                exact Database.prepare_freeCount hp
              cases b with
              | true =>
                  injection h with h1 h2
                  injection h2 with h3
                  rw [← h3]
                  simp [PreparedStmt.free, e1, e2]
              | false =>
                  injection h with h1 h2
                  injection h2 with h3
                  rw [← h3]
                  simp [PreparedStmt.free, e1, e2]

theorem getFirstAsync_error_not_freed {db : Database} {q : Query} {params : List Int}
    {e : JsError} {st : PreparedStmt}
    (h : getFirstAsync db q params = (.error e, some st)) : st.freeCount = 0 := by
  unfold getFirstAsync at h
  cases hp : db.prepare q with
  | error e2 => try simp only [hp] at h; cases h
  | ok st0 =>
      try simp only [hp] at h
      have hf0 : st0.freeCount = 0 := Database.prepare_freeCount hp
      cases hb : st0.bind params with
      | error e2 =>
          try simp only [hb] at h
          injection h with h1 h2
          injection h2 with h3
          rw [← h3]
          exact hf0
      | ok st1 =>
          try simp only [hb] at h
          cases hs : st1.step with
          | ok p =>
              obtain ⟨b, st2⟩ := p
              try simp only [hs] at h
              cases b with
              | true => cases h
              | false => cases h
          | error e1 =>
              try simp only [hs] at h
              injection h with h1 h2
              injection h2 with h3
              rw [← h3, PreparedStmt.bind_eq hb]
              exact hf0

/-- C7 is refuted: when `step` throws at once (a QueryError raised
mid-iteration), both `getAllAsync` and `getFirstAsync` propagate the failure
with the prepared statement never released — its release count is 0, not 1. -/
theorem statement_not_freed_counterexample :
    (getAllAsync (newDatabase none) (.selectAllFailAfter 0) []).1
        = .error (.query "step failed") ∧
    ((getAllAsync (newDatabase none) (.selectAllFailAfter 0) []).2.map
        PreparedStmt.freeCount) = some 0 ∧
    (getFirstAsync (newDatabase none) (.selectAllFailAfter 0) []).1
        = .error (.query "step failed") ∧
    ((getFirstAsync (newDatabase none) (.selectAllFailAfter 0) []).2.map
        PreparedStmt.freeCount) = some 0 := by
  decide

/-- C7 (amended): on success `getAllAsync`/`getFirstAsync` release the
prepared statement exactly once before returning; but when `bind` or `step`
throws, the failure propagates with the statement never released — the source
has no `try`/`finally` around the iteration. -/
theorem statement_release (db : Database) (q : Query) (params : List Int) :
    (∀ rows st, getAllAsync db q params = (.ok rows, some st) → st.freeCount = 1) ∧
    (∀ e st, getAllAsync db q params = (.error e, some st) → st.freeCount = 0) ∧
    (∀ r st, getFirstAsync db q params = (.ok r, some st) → st.freeCount = 1) ∧
    (∀ e st, getFirstAsync db q params = (.error e, some st) → st.freeCount = 0) :=
  ⟨fun _ _ h => getAllAsync_ok_freed h,
   fun _ _ h => getAllAsync_error_not_freed h,
   fun _ _ h => getFirstAsync_ok_freed h,
   fun _ _ h => getFirstAsync_error_not_freed h⟩

/-- Witness for the amended C7 on a successful query over a fresh engine: the
returned statement state shows exactly one release. -/
theorem statement_release_witness :
    getAllAsync (newDatabase none) Query.selectAll [] =
      (.ok [], some { pending := [], current := none, stepsBeforeFail := none,
                      bindFails := false, freeCount := 1 }) ∧
    ({ pending := [], current := none, stepsBeforeFail := none,
       bindFails := false, freeCount := 1 } : PreparedStmt).freeCount = 1 :=
  ⟨rfl, (statement_release (newDatabase none) .selectAll []).1 [] _ rfl⟩

theorem PreparedStmt.step_nil {st : PreparedStmt}
    (h0 : st.stepsBeforeFail ≠ some 0) (hp : st.pending = []) :
    ∃ st', st.step = .ok (false, st') := by
  unfold PreparedStmt.step
  cases hsb : st.stepsBeforeFail with
  | none => simp only [hsb, hp]; exact ⟨_, rfl⟩
  | some k =>
      cases k with
      | zero => exact absurd hsb h0
      | succ m => simp only [hsb, hp]; exact ⟨_, rfl⟩

theorem PreparedStmt.step_cons {st : PreparedStmt}
    (h0 : st.stepsBeforeFail ≠ some 0) {r : DbRow} {rest : List DbRow}
    (hp : st.pending = r :: rest) :
    ∃ st', st.step = .ok (true, st') ∧ st'.current = some r := by
  unfold PreparedStmt.step
  cases hsb : st.stepsBeforeFail with
  | none => simp only [hsb, hp]; exact ⟨_, rfl, rfl⟩
  | some k =>
      cases k with
      | zero => exact absurd hsb h0
      | succ m => simp only [hsb, hp]; exact ⟨_, rfl, rfl⟩

/-- C10: against the same engine state and parameters, whenever `getAllAsync`
resolves with a row list, `getFirstAsync` resolves with exactly the head of
that list — and with `null` (`none`), not `undefined` and not an error, when
the list is empty.  (Both embeddings are functions of the connection only:
they neither update the connection nor touch the blob-store world, mirroring
the read-only source bodies.) -/
theorem getFirst_head_getAll (db : Database) (q : Query) (params : List Int) :
    ∀ rows st, getAllAsync db q params = (.ok rows, st) →
      (getFirstAsync db q params).1 = .ok rows.head? := by
  intro rows st h
  unfold getAllAsync at h
  unfold getFirstAsync
  cases hp : db.prepare q with
  | error e => try simp only [hp] at h; cases h
  | ok st0 =>
      try simp only [hp] at h
      simp only [hp]
      cases hb : st0.bind params with
      | error e => try simp only [hb] at h; cases h
      | ok st1 =>
          try simp only [hb] at h
          simp only [hb]
          cases hl : getAllLoop (st1.pending.length + 1) st1 [] with
          | mk r1 st2 =>
              cases r1 with
              | error e1 => try simp only [hl] at h; cases h
              | ok rows1 =>
                  try simp only [hl] at h
                  have hrows : rows1 = st1.pending := by
                    simpa using getAllLoop_ok_rows _ _ _ _ _ hl
                  have hnf : st1.stepsBeforeFail ≠ some 0 :=
                    getAllLoop_ok_no_immediate_fail _ _ _ _ _ hl
                  injection h with h1 h2
                  injection h1 with h1'
                  subst h1'
                  cases hsp : st1.pending with
                  | nil =>
                      obtain ⟨st', hs⟩ := PreparedStmt.step_nil hnf hsp
                      rw [hs]
                      simp [hrows, hsp]
                  | cons r rest =>
                      obtain ⟨st', hs, hcur⟩ := PreparedStmt.step_cons hnf hsp
                      rw [hs]
                      simp [PreparedStmt.getAsObject, hcur, hrows, hsp]

/-- Witness for C10 on an engine holding one row. -/
theorem getFirst_head_getAll_witness :
    (getFirstAsync
        { state := { rows := [(1, 5)], nextRowId := 2 }, txn := none,
          lastInsertRowId := 0, rowsModified := 0 } Query.selectAll []).1
      = .ok (([[("id", 1), ("value", 5)]] : List DbRow).head?) :=
  getFirst_head_getAll
    { state := { rows := [(1, 5)], nextRowId := 2 }, txn := none,
      lastInsertRowId := 0, rowsModified := 0 } .selectAll []
    [[("id", 1), ("value", 5)]]
    (getAllAsync
      { state := { rows := [(1, 5)], nextRowId := 2 }, txn := none,
        lastInsertRowId := 0, rowsModified := 0 } .selectAll []).2 rfl

/-- C2: round-trip — after any sequence of committed mutations, persisting the
state and then performing a fresh open of the same database name yields an
engine whose content, and therefore whose query results, are exactly those as
of the last committed mutation. -/
theorem persist_open_roundtrip (databaseName : String) (ms : List Mutation)
    (s s' : Session) (hW : s.world.healthy)
    (hRun : applyMutations databaseName ms s = (.ok (), s'))
    (env : OpenEnv) (hEnv : env.moduleLoadFails = false) :
    ∃ w2, saveDB databaseName s'.database s'.world = .ok w2 ∧
      ∃ db, openDatabaseAsync env databaseName w2 = .ok db ∧
        db.state = s'.database.state ∧
        (∀ q params, getAllAsync db q params = getAllAsync s'.database q params ∧
                     getFirstAsync db q params = getFirstAsync s'.database q params) := by
  have hW' : s'.world.healthy := by
    apply Idb.healthy_of_flags _ hW
    have hf := applyMutations_flags databaseName ms s
    rw [hRun] at hf
    exact hf
  obtain ⟨h1, h2, h3⟩ := hW'
  refine ⟨{ s'.world with
              stored := (databaseName, s'.database.state) :: s'.world.stored,
              puts := s'.world.puts ++ [(databaseName, s'.database.state)] },
          ?_, ?_⟩
  · unfold saveDB saveDatabaseToIndexedDB
    simp [h1, h3, Database.export]
  · refine ⟨newDatabase (some s'.database.state), ?_, rfl, ?_⟩
    · unfold openDatabaseAsync loadDB loadDatabaseFromIndexedDB
      simp [hEnv, h1, h2, List.lookup]
    · intro q params
      exact ⟨getAllAsync_state_congr rfl q params,
             getFirstAsync_state_congr rfl q params⟩

/-- The session after one committed INSERT issued through `runAsync` on a
fresh session. -/
def sessionAfterInsert : Session :=
  (applyMutations "db.db" [Mutation.runM (.insert 5)] freshSession).2

/-- Witness for C2 after one committed INSERT. -/
theorem persist_open_roundtrip_witness :
    ∃ w2, saveDB "db.db" sessionAfterInsert.database sessionAfterInsert.world
        = .ok w2 ∧
      ∃ db, openDatabaseAsync OpenEnv.ok "db.db" w2 = .ok db ∧
        db.state = sessionAfterInsert.database.state := by
  obtain ⟨w2, hw2, db, hdb, hstate, hq⟩ :=
    persist_open_roundtrip "db.db" [Mutation.runM (.insert 5)] freshSession
      sessionAfterInsert (by decide) rfl OpenEnv.ok rfl
  exact ⟨w2, hw2, db, hdb, hstate⟩

theorem waitForDb_resolves (p : ProviderRun) :
    ∀ (n t : Nat), p.initDone - t = n →
      waitForDb p t n = some (max t p.initDone, p.readyDb) := by
  intro n
  induction n with
  | zero =>
      intro t ht
      have h : p.initDone ≤ t := Nat.sub_eq_zero_iff_le.mp ht
      unfold waitForDb dbRefAt
      rw [if_pos h]
      simp [Nat.max_eq_left h]
  | succ n ih =>
      intro t ht
      have h : ¬ p.initDone ≤ t := by omega
      unfold waitForDb dbRefAt
      rw [if_neg h]
      have h2 : p.initDone - (t + 1) = n := by omega
      rw [ih (t + 1) h2]
      have h3 : max (t + 1) p.initDone = p.initDone := Nat.max_eq_right (by omega)
      have h4 : max t p.initDone = p.initDone := Nat.max_eq_right (by omega)
      rw [h3, h4]

theorem waitForDb_sound (p : ProviderRun) :
    ∀ (fuel t u : Nat) (db : Database),
      waitForDb p t fuel = some (u, db) →
      db = p.readyDb ∧ t ≤ u ∧ p.initDone ≤ u := by
  intro fuel
  induction fuel with
  | zero =>
      intro t u db h
      unfold waitForDb at h
      by_cases hr : p.initDone ≤ t
      · rw [show dbRefAt p t = some p.readyDb from by simp [dbRefAt, hr]] at h
        injection h with h2
        injection h2 with h3 h4
        exact ⟨h4.symm, le_of_eq h3, h3 ▸ hr⟩
      · rw [show dbRefAt p t = none from by simp [dbRefAt, hr]] at h
        cases h
  | succ n ih =>
      intro t u db h
      unfold waitForDb at h
      by_cases hr : p.initDone ≤ t
      · rw [show dbRefAt p t = some p.readyDb from by simp [dbRefAt, hr]] at h
        injection h with h2
        injection h2 with h3 h4
        exact ⟨h4.symm, le_of_eq h3, h3 ▸ hr⟩
      · rw [show dbRefAt p t = none from by simp [dbRefAt, hr]] at h
        obtain ⟨hdb, hle, hinit⟩ := ih (t + 1) u db h
        exact ⟨hdb, by omega, hinit⟩

/-- C5: a public operation of the gated provider invoked at tick `t` suspends
through `waitForDb`, which re-checks `dbRef.current` on each timer tick:
with enough ticks it resolves exactly at the first tick at which
initialization has completed; whatever the fuel, whenever it resolves, the
engine it hands over is the fully initialized one assigned after `onInit`
(never a partially initialized engine, never before readiness); the gated
operation then executes exactly once against that engine. -/
theorem readiness_gate (p : ProviderRun) (t : Nat) :
    waitForDb p t (p.initDone - t) = some (max t p.initDone, p.readyDb) ∧
    (∀ fuel u db, waitForDb p t fuel = some (u, db) →
        db = p.readyDb ∧ t ≤ u ∧ p.initDone ≤ u) ∧
    (∀ (op : Database → Except JsError Int),
        gatedOp p t (p.initDone - t) op = some (op p.readyDb)) := by
  refine ⟨waitForDb_resolves p (p.initDone - t) t rfl,
          fun fuel u db h => waitForDb_sound p fuel t u db h,
          fun op => ?_⟩
  unfold gatedOp
  rw [waitForDb_resolves p (p.initDone - t) t rfl]
  rfl

/-- A provider run completing initialization at tick 3. -/
def provider3 : ProviderRun := { initDone := 3, readyDb := newDatabase none }

/-- Witness for C5: an operation invoked at tick 1, before initialization
completes at tick 3, resolves at tick 3 with the ready engine. -/
theorem readiness_gate_witness :
    waitForDb provider3 1 2 = some (max 1 3, provider3.readyDb) ∧
    (newDatabase none = provider3.readyDb ∧ 1 ≤ 3 ∧ 3 ≤ 3) :=
  ⟨(readiness_gate provider3 1).1,
   (readiness_gate provider3 1).2.1 2 3 (newDatabase none) rfl⟩
